import Mathlib

/-!
Shallow embedding of the chiplog transaction engine and identity layer.

The data model follows `src/domain/models.py`; the user store follows the
SQLite/dict repositories (`src/infrastructure/db/user_repository_sqlite.py`,
`src/tests/test_application_services.py`); the identity resolver follows
`src/infrastructure/db/identity_repository_sqlite.py`; the engine operations
follow `src/application/services.py`; the reaction handler follows
`src/interfaces/discord/handlers.py`.  Stores are modelled as association
lists in insertion order, with state passed explicitly.
-/

namespace ChipLog

/-- `User` from `src/domain/models.py`: id, names, integer balance. -/
structure User where
  id : String
  first_name : String
  last_name : String
  balance : Int
deriving Repr, DecidableEq

/-- `BroadcastMessage` from `src/application/services.py`. -/
structure BroadcastMessage where
  user_id : String
  text : String
deriving Repr, DecidableEq

/-- `OperationResult` from `src/application/services.py`. -/
structure OperationResult where
  success : Bool
  error_message : Option String
  broadcasts : List BroadcastMessage
deriving Repr, DecidableEq

/-- `InitiateBuyFromResult` from `src/application/services.py`. -/
structure InitiateBuyFromResult where
  success : Bool
  error_message : Option String
  source_user : Option User
  candidates : List User
deriving Repr, DecidableEq

/-- `ExternalContext` from `src/application/services.py`. -/
structure ExternalContext where
  provider : String
  provider_user_id : String
  first_name : String
  last_name : String
deriving Repr, DecidableEq

/-- `UserRepository.get_user`: first record whose id matches (the id is a
primary key, so at most one row matches). -/
def get_user : List User → String → Option User
  | [], _ => none
  | u :: rest, user_id => if u.id = user_id then some u else get_user rest user_id

/-- `UserRepository.get_all_users`: the full table scan. -/
def get_all_users (users : List User) : List User := users

/-- `INSERT OR IGNORE`: append the record unless its id is already present. -/
def add_user (users : List User) (u : User) : List User :=
  if (get_user users u.id).isSome then users else users ++ [u]

/-- `UPDATE users SET balance = balance + delta WHERE id = user_id`. -/
def update_balance : List User → String → Int → List User
  | [], _, _ => []
  | u :: rest, user_id, delta =>
    (if u.id = user_id then { u with balance := u.balance + delta } else u)
      :: update_balance rest user_id delta

/-- The `user_identities` table: rows `((provider, provider_user_id), user_id)`
with `(provider, provider_user_id)` as primary key. -/
abbrev Links := List ((String × String) × String)

/-- `SELECT user_id FROM user_identities WHERE provider = ? AND provider_user_id = ?`. -/
def links_lookup : Links → String → String → Option String
  | [], _, _ => none
  | e :: rest, provider, puid =>
    if e.1.1 = provider ∧ e.1.2 = puid then some e.2 else links_lookup rest provider puid

/-- The `DO UPDATE` arm of the upsert: rewrite the user id of every row whose
key matches (at most one, by the primary key). -/
def links_update : Links → String → String → String → Links
  | [], _, _, _ => []
  | e :: rest, provider, puid, user_id =>
    (if e.1.1 = provider ∧ e.1.2 = puid then (e.1, user_id) else e)
      :: links_update rest provider puid user_id

/-- `set_external_identity`: `INSERT ... ON CONFLICT DO UPDATE` on the links table. -/
def set_external_identity (links : Links) (provider puid user_id : String) : Links :=
  if (links_lookup links provider puid).isSome then links_update links provider puid user_id
  else links ++ [((provider, puid), user_id)]

/-- Combined persistent state: user table plus identity-link table. -/
structure EngineState where
  users : List User
  links : Links
deriving Repr, DecidableEq

/-- `SqliteIdentityRepository.find_user_by_external`: link lookup then store lookup. -/
def find_user_by_external (st : EngineState) (provider puid : String) : Option User :=
  match links_lookup st.links provider puid with
  | none => none
  | some uid => get_user st.users uid

/-- `SqliteIdentityRepository.get_or_create_user_from_external`: return the linked
user if the link resolves; otherwise create a user whose id is the external id,
insert it (ignore if present), upsert the link, and return the stored record. -/
def get_or_create_user_from_external (st : EngineState)
    (provider puid first_name last_name : String) : User × EngineState :=
  match find_user_by_external st provider puid with
  | some existing => (existing, st)
  | none =>
    let user : User := ⟨puid, first_name, last_name, 0⟩
    let users' := add_user st.users user
    let links' := set_external_identity st.links provider puid user.id
    let st' : EngineState := ⟨users', links'⟩
    match get_user st'.users user.id with
    | some stored => (stored, st')
    | none => (user, st')

/-- `_validate_positive_amount` from `src/application/services.py`. -/
def validate_positive_amount (amount : Int) : Option String :=
  if amount ≤ 0 then some "Amount must be greater than zero." else none

/-- `buy_chips_from_bank`: validate, resolve the caller, debit by `amount`,
broadcast to every user known after the debit. -/
def buy_chips_from_bank (ctx : ExternalContext) (amount : Int) (st : EngineState) :
    OperationResult × EngineState :=
  match validate_positive_amount amount with
  | some error => (⟨false, some error, []⟩, st)
  | none =>
    let r := get_or_create_user_from_external st ctx.provider ctx.provider_user_id
      ctx.first_name ctx.last_name
    let user := r.1
    let st1 := r.2
    let users2 := update_balance st1.users user.id (-amount)
    let text := user.first_name ++ " " ++ user.last_name ++ " buys " ++ toString amount
    let broadcasts := (get_all_users users2).map (fun u => ⟨u.id, text⟩)
    (⟨true, none, broadcasts⟩, ⟨users2, st1.links⟩)

/-- `sell_chips_to_bank`: same shape as buying, with delta `+amount` and
"sells" wording. -/
def sell_chips_to_bank (ctx : ExternalContext) (amount : Int) (st : EngineState) :
    OperationResult × EngineState :=
  match validate_positive_amount amount with
  | some error => (⟨false, some error, []⟩, st)
  | none =>
    let r := get_or_create_user_from_external st ctx.provider ctx.provider_user_id
      ctx.first_name ctx.last_name
    let user := r.1
    let st1 := r.2
    let users2 := update_balance st1.users user.id amount
    let text := user.first_name ++ " " ++ user.last_name ++ " sells " ++ toString amount
    let broadcasts := (get_all_users users2).map (fun u => ⟨u.id, text⟩)
    (⟨true, none, broadcasts⟩, ⟨users2, st1.links⟩)

/-- `initiate_buy_from_player`: validate, resolve the caller as buyer, list all
other users as candidates; fail when there are none. -/
def initiate_buy_from_player (ctx : ExternalContext) (amount : Int) (st : EngineState) :
    InitiateBuyFromResult × EngineState :=
  match validate_positive_amount amount with
  | some error => (⟨false, some error, none, []⟩, st)
  | none =>
    let r := get_or_create_user_from_external st ctx.provider ctx.provider_user_id
      ctx.first_name ctx.last_name
    let source_user := r.1
    let st1 := r.2
    let candidates := (get_all_users st1.users).filter (fun u => u.id ≠ source_user.id)
    if candidates = [] then
      (⟨false, some "No other players available to buy from.", some source_user, []⟩, st1)
    else
      (⟨true, none, some source_user, candidates⟩, st1)

/-- `confirm_buy_from_player`: validate, look up both users, debit the source,
credit the target, broadcast to every user known after both deltas. -/
def confirm_buy_from_player (source_user_id target_user_id : String) (amount : Int)
    (users : List User) : OperationResult × List User :=
  match validate_positive_amount amount with
  | some error => (⟨false, some error, []⟩, users)
  | none =>
    match get_user users source_user_id, get_user users target_user_id with
    | some source, some target =>
      let users1 := update_balance users source.id (-amount)
      let users2 := update_balance users1 target.id amount
      let text := source.first_name ++ " " ++ source.last_name ++ " buys "
        ++ toString amount ++ " from " ++ target.first_name ++ " " ++ target.last_name
      (⟨true, none, (get_all_users users2).map (fun u => ⟨u.id, text⟩)⟩, users2)
    | _, _ => (⟨false, some " Buyer or seller not found.", []⟩, users)

/-- `reject_buy_from_player`: no validation, no store access; one broadcast to
the source user with a fixed text. -/
def reject_buy_from_player (source_user_id target_user_id : String) (amount : Int) :
    OperationResult :=
  ⟨true, none, [⟨source_user_id, "haha sorry"⟩]⟩

/-- A value of the discord handler's `pending_requests` dict:
`(buyer_internal_id, seller_internal_id, amount, seller_discord_id)`. -/
structure PendingRequest where
  buyer_id : String
  seller_id : String
  amount : Int
  seller_discord_id : Nat
deriving Repr, DecidableEq

/-- State the discord reaction handler touches: the in-memory
`pending_requests` dict (keyed by confirmation-message id) and the user table. -/
structure HandlerState where
  pending : List (Nat × PendingRequest)
  users : List User
deriving Repr, DecidableEq

/-- `message_id in pending_requests` / `pending_requests[message_id]`. -/
def lookup_pending : List (Nat × PendingRequest) → Nat → Option PendingRequest
  | [], _ => none
  | e :: rest, mid => if e.1 = mid then some e.2 else lookup_pending rest mid

/-- `pending_requests.pop(message_id, None)`: drop the entry for the key. -/
def pop_pending : List (Nat × PendingRequest) → Nat → List (Nat × PendingRequest)
  | [], _ => []
  | e :: rest, mid => if e.1 = mid then pop_pending rest mid else e :: pop_pending rest mid

/-- Python truthiness of an `Optional[str]`: present and non-empty. -/
def truthy_error : Option String → Bool
  | none => false
  | some e => e != ""

/-- The messages the handler sends to the channel after an engine call:
the error text when the result failed with a truthy message, else the first
broadcast's text if any. -/
def result_sends (r : OperationResult) : List String :=
  if r.success = false ∧ truthy_error r.error_message = true then
    (match r.error_message with | none => [] | some e => [e])
  else
    match r.broadcasts with
    | [] => []
    | b :: _ => [b.text]

/-- `on_reaction_add` from `src/interfaces/discord/handlers.py`: ignore bots,
untracked messages and non-seller reactors; on a check-mark run the confirm,
on a cross run the reject; pop the pending entry; send error or first
broadcast. Returns the new state and the texts sent to the channel. -/
def on_reaction_add (user_is_bot : Bool) (reactor_id : Nat) (message_id : Nat)
    (emoji : String) (st : HandlerState) : HandlerState × List String :=
  if user_is_bot then (st, [])
  else
    match lookup_pending st.pending message_id with
    | none => (st, [])
    | some req =>
      if reactor_id ≠ req.seller_discord_id then (st, [])
      else if emoji = "✅" then
        let r := confirm_buy_from_player req.buyer_id req.seller_id req.amount st.users
        (⟨pop_pending st.pending message_id, r.2⟩, result_sends r.1)
      else if emoji = "❌" then
        let r := reject_buy_from_player req.buyer_id req.seller_id req.amount
        (⟨pop_pending st.pending message_id, st.users⟩, result_sends r)
      else (st, [])

/-- Total of all balances in the user table (for the conservation invariant). -/
def balance_sum : List User → Int
  | [] => 0
  | u :: rest => u.balance + balance_sum rest

/-- Number of rows with the given id (1 for a well-formed table). -/
def count_id : List User → String → Nat
  | [], _ => 0
  | u :: rest, i => (if u.id = i then 1 else 0) + count_id rest i

/-! ### Store lemmas -/

theorem get_user_id {l : List User} {i : String} {u : User}
    (h : get_user l i = some u) : u.id = i := by
  induction l with
  | nil => simp [get_user] at h
  | cons a rest ih =>
    by_cases ha : a.id = i
    · simp [get_user, ha] at h
      rw [← h]; exact ha
    · simp [get_user, ha] at h
      exact ih h

theorem get_user_mem {l : List User} {i : String} {u : User}
    (h : get_user l i = some u) : u ∈ l := by
  induction l with
  | nil => simp [get_user] at h
  | cons a rest ih =>
    by_cases ha : a.id = i
    · simp [get_user, ha] at h
      simp [← h]
    · simp [get_user, ha] at h
      exact List.mem_cons_of_mem a (ih h)

theorem get_user_update_self {l : List User} {i : String} {u : User} (δ : Int)
    (h : get_user l i = some u) :
    get_user (update_balance l i δ) i = some { u with balance := u.balance + δ } := by
  induction l with
  | nil => simp [get_user] at h
  | cons a rest ih =>
    by_cases ha : a.id = i
    · simp [get_user, ha] at h
      simp [update_balance, get_user, ha, ← h]
    · simp [get_user, ha] at h
      simp [update_balance, get_user, ha]
      exact ih h

theorem get_user_update_ne {l : List User} {i j : String} (δ : Int) (hne : j ≠ i) :
    get_user (update_balance l i δ) j = get_user l j := by
  induction l with
  | nil => simp [update_balance]
  | cons a rest ih =>
    by_cases ha : a.id = i
    · have haj : a.id ≠ j := by rw [ha]; exact Ne.symm hne
      simp [update_balance, get_user, ha, haj, Ne.symm hne, ih]
    · simp only [update_balance, if_neg ha, get_user]
      by_cases haj : a.id = j
      · simp [haj]
      · simp [haj, ih]

theorem count_id_eq_zero_of_not_mem {l : List User} {i : String}
    (h : i ∉ l.map User.id) : count_id l i = 0 := by
  induction l with
  | nil => rfl
  | cons a rest ih =>
    rw [List.map_cons, List.mem_cons] at h
    push_neg at h
    have h1 : a.id ≠ i := fun hc => h.1 hc.symm
    simp [count_id, h1, ih h.2]

theorem count_id_eq_one {l : List User} {i : String} {u : User}
    (hnd : (l.map User.id).Nodup) (h : get_user l i = some u) : count_id l i = 1 := by
  induction l with
  | nil => simp [get_user] at h
  | cons a rest ih =>
    simp [List.nodup_cons] at hnd
    by_cases ha : a.id = i
    · have hz : count_id rest i = 0 := by
        apply count_id_eq_zero_of_not_mem
        intro hmem
        simp at hmem
        obtain ⟨v, hv, hvi⟩ := hmem
        exact hnd.1 v hv (by rw [hvi, ha])
      simp [count_id, ha, hz]
    · simp [get_user, ha] at h
      simp [count_id, ha, ih hnd.2 h]

theorem balance_sum_update (l : List User) (i : String) (δ : Int) :
    balance_sum (update_balance l i δ) = balance_sum l + δ * (count_id l i : Int) := by
  induction l with
  | nil => simp [update_balance, balance_sum, count_id]
  | cons a rest ih =>
    by_cases ha : a.id = i
    · simp [update_balance, balance_sum, count_id, ha, ih]
      ring
    · simp [update_balance, balance_sum, count_id, ha, ih]
      ring

theorem count_id_update (l : List User) (i j : String) (δ : Int) :
    count_id (update_balance l j δ) i = count_id l i := by
  induction l with
  | nil => rfl
  | cons a rest ih =>
    by_cases ha : a.id = j
    · simp [update_balance, count_id, ha, ih]
    · simp [update_balance, count_id, ha, ih]

theorem get_user_append_some {l : List User} {i : String} {u : User} (v : User)
    (h : get_user l i = some u) : get_user (l ++ [v]) i = some u := by
  induction l with
  | nil => simp [get_user] at h
  | cons a rest ih =>
    by_cases ha : a.id = i
    · simp [get_user, ha] at h ⊢
      exact h
    · simp [get_user, ha] at h ⊢
      exact ih h

theorem get_user_append_none {l : List User} {i : String} (v : User)
    (h : get_user l i = none) :
    get_user (l ++ [v]) i = if v.id = i then some v else none := by
  induction l with
  | nil => simp [get_user]
  | cons a rest ih =>
    by_cases ha : a.id = i
    · simp [get_user, ha] at h
    · simp [get_user, ha] at h ⊢
      exact ih h

theorem add_user_get_self (l : List User) (u : User) :
    ∃ w, get_user (add_user l u) u.id = some w ∧ w.id = u.id := by
  unfold add_user
  by_cases h : (get_user l u.id).isSome
  · simp [h]
    obtain ⟨w, hw⟩ := Option.isSome_iff_exists.mp h
    exact ⟨w, hw, get_user_id hw⟩
  · simp [h]
    simp [Option.not_isSome_iff_eq_none] at h
    rw [get_user_append_none u h]
    simp

/-! ### Link-table and pending-registry lemmas -/

theorem links_lookup_update_self {links : Links} {p e : String} (uid : String)
    (h : (links_lookup links p e).isSome) :
    links_lookup (links_update links p e uid) p e = some uid := by
  induction links with
  | nil => simp [links_lookup] at h
  | cons a rest ih =>
    by_cases ha : a.1.1 = p ∧ a.1.2 = e
    · simp [links_update, links_lookup, ha]
    · simp [links_lookup, ha] at h
      simp [links_update, links_lookup, ha, ih h]

theorem links_lookup_append_none {links : Links} {p e : String} (x : (String × String) × String)
    (h : links_lookup links p e = none) :
    links_lookup (links ++ [x]) p e =
      if x.1.1 = p ∧ x.1.2 = e then some x.2 else none := by
  induction links with
  | nil => simp [links_lookup]
  | cons a rest ih =>
    by_cases ha : a.1.1 = p ∧ a.1.2 = e
    · simp [links_lookup, ha] at h
    · simp [links_lookup, ha] at h ⊢
      exact ih h

theorem links_lookup_set_self (links : Links) (p e uid : String) :
    links_lookup (set_external_identity links p e uid) p e = some uid := by
  unfold set_external_identity
  by_cases h : (links_lookup links p e).isSome
  · simp [h, links_lookup_update_self uid h]
  · simp [h]
    simp [Option.not_isSome_iff_eq_none] at h
    rw [links_lookup_append_none _ h]
    simp

theorem lookup_pop_pending_none (l : List (Nat × PendingRequest)) (mid : Nat) :
    lookup_pending (pop_pending l mid) mid = none := by
  induction l with
  | nil => rfl
  | cons a rest ih =>
    by_cases ha : a.1 = mid
    · simp [pop_pending, ha, ih]
    · simp [pop_pending, lookup_pending, ha, ih]

/-! ### Identity-resolution lemmas -/

theorem goc_of_find_some {st : EngineState} {p e : String} {u : User}
    (f l : String) (h : find_user_by_external st p e = some u) :
    get_or_create_user_from_external st p e f l = (u, st) := by
  unfold get_or_create_user_from_external
  rw [h]

/-- Characterisation of the creation path: when the external identity does not
resolve, the returned user is the stored record at the external id, the user
table gains (at most) the fresh record, and the link table maps the identity
to the external id. -/
theorem goc_of_find_none {st : EngineState} {p e : String} (f l : String)
    (h : find_user_by_external st p e = none) :
    ∃ w, get_or_create_user_from_external st p e f l =
        (w, ⟨add_user st.users ⟨e, f, l, 0⟩, set_external_identity st.links p e e⟩) ∧
      w.id = e ∧
      get_user (add_user st.users ⟨e, f, l, 0⟩) e = some w := by
  obtain ⟨w, hw, hwid⟩ := add_user_get_self st.users ⟨e, f, l, 0⟩
  refine ⟨w, ?_, hwid, hw⟩
  unfold get_or_create_user_from_external
  rw [h]
  simp only []
  rw [hw]

/-- After any resolution the returned user is present in the store under its id. -/
theorem goc_get_self (st : EngineState) (p e f l : String) :
    get_user (get_or_create_user_from_external st p e f l).2.users
      (get_or_create_user_from_external st p e f l).1.id =
      some (get_or_create_user_from_external st p e f l).1 := by
  cases h : find_user_by_external st p e with
  | some u =>
    rw [goc_of_find_some f l h]
    unfold find_user_by_external at h
    cases hl : links_lookup st.links p e with
    | none => rw [hl] at h; simp at h
    | some uid =>
      rw [hl] at h
      simp at h
      rw [get_user_id h]
      exact h
  | none =>
    obtain ⟨w, heq, hwid, hget⟩ := goc_of_find_none f l h
    rw [heq]
    simp [hwid, hget]

/-- After any resolution the same external identity resolves to the returned user. -/
theorem goc_find_after (st : EngineState) (p e f l : String) :
    find_user_by_external (get_or_create_user_from_external st p e f l).2 p e =
      some (get_or_create_user_from_external st p e f l).1 := by
  cases h : find_user_by_external st p e with
  | some u =>
    rw [goc_of_find_some f l h]
    simp [h]
  | none =>
    obtain ⟨w, heq, hwid, hget⟩ := goc_of_find_none f l h
    rw [heq]
    simp [find_user_by_external, links_lookup_set_self, hwid, hget]

/-- The resolution call every bank/initiate operation makes on its caller. -/
def resolve_caller (ctx : ExternalContext) (st : EngineState) : User × EngineState :=
  get_or_create_user_from_external st ctx.provider ctx.provider_user_id
    ctx.first_name ctx.last_name

/-! ### Characterisations of the engine operations for positive amounts -/

theorem buy_eq_of_pos (ctx : ExternalContext) {amount : Int} (st : EngineState)
    (hpos : 0 < amount) :
    buy_chips_from_bank ctx amount st =
      (⟨true, none,
          (update_balance (resolve_caller ctx st).2.users (resolve_caller ctx st).1.id
              (-amount)).map
            (fun u => ⟨u.id, (resolve_caller ctx st).1.first_name ++ " "
              ++ (resolve_caller ctx st).1.last_name ++ " buys " ++ toString amount⟩)⟩,
        ⟨update_balance (resolve_caller ctx st).2.users (resolve_caller ctx st).1.id
            (-amount),
          (resolve_caller ctx st).2.links⟩) := by
  unfold buy_chips_from_bank validate_positive_amount resolve_caller
  rw [if_neg (not_le.mpr hpos)]
  rfl

theorem sell_eq_of_pos (ctx : ExternalContext) {amount : Int} (st : EngineState)
    (hpos : 0 < amount) :
    sell_chips_to_bank ctx amount st =
      (⟨true, none,
          (update_balance (resolve_caller ctx st).2.users (resolve_caller ctx st).1.id
              amount).map
            (fun u => ⟨u.id, (resolve_caller ctx st).1.first_name ++ " "
              ++ (resolve_caller ctx st).1.last_name ++ " sells " ++ toString amount⟩)⟩,
        ⟨update_balance (resolve_caller ctx st).2.users (resolve_caller ctx st).1.id
            amount,
          (resolve_caller ctx st).2.links⟩) := by
  unfold sell_chips_to_bank validate_positive_amount resolve_caller
  rw [if_neg (not_le.mpr hpos)]
  rfl

theorem initiate_eq_of_pos (ctx : ExternalContext) {amount : Int} (st : EngineState)
    (hpos : 0 < amount) :
    initiate_buy_from_player ctx amount st =
      (if (resolve_caller ctx st).2.users.filter
            (fun u => u.id ≠ (resolve_caller ctx st).1.id) = [] then
        (⟨false, some "No other players available to buy from.",
            some (resolve_caller ctx st).1, []⟩, (resolve_caller ctx st).2)
      else
        (⟨true, none, some (resolve_caller ctx st).1,
            (resolve_caller ctx st).2.users.filter
              (fun u => u.id ≠ (resolve_caller ctx st).1.id)⟩,
          (resolve_caller ctx st).2)) := by
  unfold initiate_buy_from_player validate_positive_amount resolve_caller get_all_users
  rw [if_neg (not_le.mpr hpos)]

theorem confirm_eq_of_found {users : List User} {b s : String} {ub us : User}
    {amount : Int} (hpos : 0 < amount)
    (hb : get_user users b = some ub) (hs : get_user users s = some us) :
    confirm_buy_from_player b s amount users =
      (⟨true, none,
          (update_balance (update_balance users ub.id (-amount)) us.id amount).map
            (fun u => ⟨u.id, ub.first_name ++ " " ++ ub.last_name ++ " buys "
              ++ toString amount ++ " from " ++ us.first_name ++ " " ++ us.last_name⟩)⟩,
        update_balance (update_balance users ub.id (-amount)) us.id amount) := by
  unfold confirm_buy_from_player validate_positive_amount get_all_users
  rw [if_neg (not_le.mpr hpos), hb, hs]

/-! ### Sample data for witnesses -/

/-- A caller context used by witnesses. -/
def ctxW : ExternalContext := ⟨"telegram", "12345", "John", "Doe"⟩

/-- A two-user table used by witnesses. -/
def usersW : List User := [⟨"A", "Ann", "Alpha", 10⟩, ⟨"B", "Bob", "Beta", 5⟩]

/-- A state in which the witness caller is already linked and stored. -/
def stW : EngineState :=
  ⟨[⟨"12345", "John", "Doe", 7⟩, ⟨"B", "Bob", "Beta", 5⟩], [(("telegram", "12345"), "12345")]⟩

/-! ### Claims -/

/-- C3 (amended): for every non-positive amount, the four amount-validating
engine operations — `buy_chips_from_bank`, `sell_chips_to_bank`,
`initiate_buy_from_player`, `confirm_buy_from_player` — return a failure
carrying the validation error message and leave every store exactly as it was;
`reject_buy_from_player` performs no amount validation (see the
counterexample) and is excluded. -/
theorem claim3_amended (ctx : ExternalContext) (amount : Int) (st : EngineState)
    (users : List User) (b s : String) (h : amount ≤ 0) :
    buy_chips_from_bank ctx amount st =
      (⟨false, some "Amount must be greater than zero.", []⟩, st) ∧
    sell_chips_to_bank ctx amount st =
      (⟨false, some "Amount must be greater than zero.", []⟩, st) ∧
    initiate_buy_from_player ctx amount st =
      (⟨false, some "Amount must be greater than zero.", none, []⟩, st) ∧
    confirm_buy_from_player b s amount users =
      (⟨false, some "Amount must be greater than zero.", []⟩, users) := by
  unfold buy_chips_from_bank sell_chips_to_bank initiate_buy_from_player
    confirm_buy_from_player validate_positive_amount
  rw [if_pos h]
  exact ⟨rfl, rfl, rfl, rfl⟩

/-- C3 (counterexample): `reject_buy_from_player` at the non-positive amount 0
returns success with a broadcast instead of a validation failure, so the claim
"every engine operation taking an amount rejects non-positive amounts" is
false as stated. -/
theorem claim3_counterexample :
    (0 : Int) ≤ 0 ∧
    (reject_buy_from_player "a" "b" 0).success = true ∧
    (reject_buy_from_player "a" "b" 0).broadcasts ≠ [] := by
  exact ⟨le_refl 0, rfl, by decide⟩

/-- C3 (witness): the amended theorem applied at amount 0 with concrete stores. -/
theorem claim3_witness :
    (0 : Int) ≤ 0 ∧
    (buy_chips_from_bank ctxW 0 stW =
        (⟨false, some "Amount must be greater than zero.", []⟩, stW) ∧
      sell_chips_to_bank ctxW 0 stW =
        (⟨false, some "Amount must be greater than zero.", []⟩, stW) ∧
      initiate_buy_from_player ctxW 0 stW =
        (⟨false, some "Amount must be greater than zero.", none, []⟩, stW) ∧
      confirm_buy_from_player "A" "B" 0 usersW =
        (⟨false, some "Amount must be greater than zero.", []⟩, usersW)) :=
  ⟨le_refl 0, claim3_amended ctxW 0 stW usersW "A" "B" (le_refl 0)⟩

/-- C7: `reject_buy_from_player` produces exactly one broadcast, addressed to
the source (buyer) id only, with the fixed decline text "haha sorry", and the
reject path of the discord reaction handler leaves every user record in the
store unchanged. -/
theorem claim7_reject_frame (src tgt : String) (amount : Int)
    (user_is_bot : Bool) (reactor mid : Nat) (st : HandlerState) :
    reject_buy_from_player src tgt amount = ⟨true, none, [⟨src, "haha sorry"⟩]⟩ ∧
    (on_reaction_add user_is_bot reactor mid "❌" st).1.users = st.users := by
  refine ⟨rfl, ?_⟩
  unfold on_reaction_add
  cases user_is_bot with
  | true => rfl
  | false =>
    simp only [Bool.false_eq_true, if_false]
    cases lookup_pending st.pending mid with
    | none => rfl
    | some req =>
      by_cases hr : reactor ≠ req.seller_discord_id
      · simp [hr]
      · simp [hr]

/-- C8: every `OperationResult` produced by the four engine operations that
return one satisfies the shape invariant: success, or an empty broadcast
list — never `success = false` together with broadcasts. -/
theorem claim8_result_shape (ctx : ExternalContext) (amount : Int) (st : EngineState)
    (b s : String) (users : List User) :
    ((buy_chips_from_bank ctx amount st).1.success = true ∨
      (buy_chips_from_bank ctx amount st).1.broadcasts = []) ∧
    ((sell_chips_to_bank ctx amount st).1.success = true ∨
      (sell_chips_to_bank ctx amount st).1.broadcasts = []) ∧
    ((confirm_buy_from_player b s amount users).1.success = true ∨
      (confirm_buy_from_player b s amount users).1.broadcasts = []) ∧
    ((reject_buy_from_player b s amount).success = true ∨
      (reject_buy_from_player b s amount).broadcasts = []) := by
  refine ⟨?_, ?_, ?_, Or.inl rfl⟩
  · unfold buy_chips_from_bank
    cases validate_positive_amount amount with
    | some e => exact Or.inr rfl
    | none => exact Or.inl rfl
  · unfold sell_chips_to_bank
    cases validate_positive_amount amount with
    | some e => exact Or.inr rfl
    | none => exact Or.inl rfl
  · unfold confirm_buy_from_player
    cases validate_positive_amount amount with
    | some e => exact Or.inr rfl
    | none =>
      cases get_user users b with
      | none =>
        cases get_user users s with
        | none => exact Or.inr rfl
        | some t => exact Or.inr rfl
      | some u =>
        cases get_user users s with
        | none => exact Or.inr rfl
        | some t => exact Or.inl rfl

/-- C9: resolving the same (channel, external id) twice returns the same user
id both times, and when no link resolves beforehand the provisioned user's id
equals the external id. -/
theorem claim9_resolve_idempotent (st : EngineState) (p e f l f2 l2 : String) :
    (get_or_create_user_from_external
        (get_or_create_user_from_external st p e f l).2 p e f2 l2).1.id =
      (get_or_create_user_from_external st p e f l).1.id ∧
    (find_user_by_external st p e = none →
      (get_or_create_user_from_external st p e f l).1.id = e) := by
  constructor
  · rw [goc_of_find_some f2 l2 (goc_find_after st p e f l)]
  · intro h
    obtain ⟨w, heq, hwid, _⟩ := goc_of_find_none f l h
    rw [heq]
    exact hwid

/-- C9 (witness): the theorem applied to the empty state, where no link
exists, with two different name arguments. -/
theorem claim9_witness :
    find_user_by_external ⟨[], []⟩ "telegram" "12345" = none ∧
    ((get_or_create_user_from_external
        (get_or_create_user_from_external ⟨[], []⟩ "telegram" "12345" "John" "Doe").2
        "telegram" "12345" "Jane" "Smith").1.id =
      (get_or_create_user_from_external ⟨[], []⟩ "telegram" "12345" "John" "Doe").1.id ∧
      (find_user_by_external ⟨[], []⟩ "telegram" "12345" = none →
        (get_or_create_user_from_external ⟨[], []⟩ "telegram" "12345" "John" "Doe").1.id =
          "12345")) :=
  ⟨rfl, claim9_resolve_idempotent ⟨[], []⟩ "telegram" "12345" "John" "Doe" "Jane" "Smith"⟩

/-- C10: when the external identity already has a link that resolves (links
never dangle here, since users are never deleted), `get_or_create_user_from_external`
returns the store's current record for the linked id and returns the state
unchanged — no user or link row is created or modified, the stored names and
balance stay as they were, and the name arguments of the call are ignored. -/
theorem claim10_resolve_frame {st : EngineState} {p e : String} {u : User} (f l : String)
    (hfind : find_user_by_external st p e = some u) :
    get_or_create_user_from_external st p e f l = (u, st) ∧
    ∃ uid, links_lookup st.links p e = some uid ∧ get_user st.users uid = some u := by
  refine ⟨goc_of_find_some f l hfind, ?_⟩
  unfold find_user_by_external at hfind
  cases hl : links_lookup st.links p e with
  | none => rw [hl] at hfind; exact absurd hfind (by simp)
  | some uid => rw [hl] at hfind; exact ⟨uid, rfl, hfind⟩

/-- C10 (witness): applied to a state with an existing link, passing name
arguments that differ from the stored record. -/
theorem claim10_witness :
    find_user_by_external stW "telegram" "12345" = some ⟨"12345", "John", "Doe", 7⟩ ∧
    (get_or_create_user_from_external stW "telegram" "12345" "Other" "Name" =
        (⟨"12345", "John", "Doe", 7⟩, stW) ∧
      ∃ uid, links_lookup stW.links "telegram" "12345" = some uid ∧
        get_user stW.users uid = some ⟨"12345", "John", "Doe", 7⟩) :=
  ⟨rfl, claim10_resolve_frame "Other" "Name" rfl⟩

/-- C1 (counterexample): with buyer and seller the same existing user and the
positive amount 5, `confirm_buy_from_player` succeeds but the buyer's balance
is unchanged (debit and credit cancel), not changed by `-5` as the claim
requires for that case. -/
theorem claim1_counterexample :
    (get_user [⟨"A", "Ann", "Alpha", 0⟩] "A").isSome ∧ (0 : Int) < 5 ∧
    (confirm_buy_from_player "A" "A" 5 [⟨"A", "Ann", "Alpha", 0⟩]).1.success = true ∧
    get_user (confirm_buy_from_player "A" "A" 5 [⟨"A", "Ann", "Alpha", 0⟩]).2 "A" =
      some ⟨"A", "Ann", "Alpha", 0⟩ ∧
    get_user (confirm_buy_from_player "A" "A" 5 [⟨"A", "Ann", "Alpha", 0⟩]).2 "A" ≠
      some ⟨"A", "Ann", "Alpha", 0 - 5⟩ := by
  refine ⟨rfl, by decide, rfl, rfl, by decide⟩

/-- C1 (amended): for every pair of *distinct* existing users and every
positive amount, `confirm_buy_from_player` succeeds, changes the buyer's
balance by `-amount`, changes the seller's balance by `+amount`, and leaves
the total of all balances unchanged; when buyer and seller coincide the debit
and credit cancel, so that case is excluded from the per-balance deltas. -/
theorem claim1_amended {users : List User} {b s : String} {ub us : User} (amount : Int)
    (hnd : (users.map User.id).Nodup) (hb : get_user users b = some ub)
    (hs : get_user users s = some us) (hbs : b ≠ s) (hpos : 0 < amount) :
    (confirm_buy_from_player b s amount users).1.success = true ∧
    get_user (confirm_buy_from_player b s amount users).2 b =
      some { ub with balance := ub.balance - amount } ∧
    get_user (confirm_buy_from_player b s amount users).2 s =
      some { us with balance := us.balance + amount } ∧
    balance_sum (confirm_buy_from_player b s amount users).2 = balance_sum users := by
  have hubid : ub.id = b := get_user_id hb
  have husid : us.id = s := get_user_id hs
  rw [confirm_eq_of_found hpos hb hs, hubid, husid]
  refine ⟨rfl, ?_, ?_, ?_⟩
  · rw [get_user_update_ne amount hbs, get_user_update_self (-amount) hb,
      sub_eq_add_neg, hubid]
  · rw [get_user_update_self amount (by rw [get_user_update_ne (-amount) (Ne.symm hbs), hs]),
      husid]
  · rw [balance_sum_update, balance_sum_update, count_id_update,
      count_id_eq_one hnd hb, count_id_eq_one hnd hs]
    ring

/-- C1 (witness): the amended theorem applied to a concrete two-user store
with amount 3. -/
theorem claim1_witness :
    ((usersW.map User.id).Nodup ∧ get_user usersW "A" = some ⟨"A", "Ann", "Alpha", 10⟩ ∧
      get_user usersW "B" = some ⟨"B", "Bob", "Beta", 5⟩ ∧ "A" ≠ "B" ∧ (0 : Int) < 3) ∧
    ((confirm_buy_from_player "A" "B" 3 usersW).1.success = true ∧
      get_user (confirm_buy_from_player "A" "B" 3 usersW).2 "A" =
        some ⟨"A", "Ann", "Alpha", 10 - 3⟩ ∧
      get_user (confirm_buy_from_player "A" "B" 3 usersW).2 "B" =
        some ⟨"B", "Bob", "Beta", 5 + 3⟩ ∧
      balance_sum (confirm_buy_from_player "A" "B" 3 usersW).2 = balance_sum usersW) :=
  ⟨⟨by decide, rfl, rfl, by decide, by decide⟩,
    @claim1_amended usersW "A" "B" ⟨"A", "Ann", "Alpha", 10⟩ ⟨"B", "Bob", "Beta", 5⟩ 3
      (by decide) rfl rfl (by decide) (by decide)⟩

/-- C4: for a caller whose external identity resolves to an existing user,
buying then selling the same positive amount from/to the bank returns the
caller's record — balance included — to exactly its prior value. -/
theorem claim4_buy_sell_roundtrip {st : EngineState} {ctx : ExternalContext} {u : User}
    (amount : Int) (hpos : 0 < amount)
    (hfind : find_user_by_external st ctx.provider ctx.provider_user_id = some u) :
    get_user ((sell_chips_to_bank ctx amount (buy_chips_from_bank ctx amount st).2).2).users
      u.id = some u := by
  have hres : resolve_caller ctx st = (u, st) :=
    goc_of_find_some ctx.first_name ctx.last_name hfind
  -- the state after the bank buy
  have hbuy : (buy_chips_from_bank ctx amount st).2 =
      ⟨update_balance st.users u.id (-amount), st.links⟩ := by
    rw [buy_eq_of_pos ctx st hpos, hres]
  -- the linked id and its record in the starting state
  obtain ⟨uid, hl, hg⟩ : ∃ uid, links_lookup st.links ctx.provider ctx.provider_user_id =
      some uid ∧ get_user st.users uid = some u := by
    unfold find_user_by_external at hfind
    cases hl : links_lookup st.links ctx.provider ctx.provider_user_id with
    | none => rw [hl] at hfind; exact absurd hfind (by simp)
    | some uid => rw [hl] at hfind; exact ⟨uid, rfl, hfind⟩
  have huid : u.id = uid := get_user_id hg
  -- after the buy the same identity resolves to the debited record
  have hfind2 : find_user_by_external (buy_chips_from_bank ctx amount st).2
      ctx.provider ctx.provider_user_id =
      some { u with balance := u.balance + -amount } := by
    rw [hbuy]
    unfold find_user_by_external
    rw [hl]
    show get_user (update_balance st.users u.id (-amount)) uid = _
    rw [← huid, get_user_update_self (-amount) (huid ▸ hg)]
  have hres2 : resolve_caller ctx (buy_chips_from_bank ctx amount st).2 =
      ({ u with balance := u.balance + -amount }, (buy_chips_from_bank ctx amount st).2) :=
    goc_of_find_some ctx.first_name ctx.last_name hfind2
  rw [sell_eq_of_pos ctx (buy_chips_from_bank ctx amount st).2 hpos, hres2]
  show get_user (update_balance (buy_chips_from_bank ctx amount st).2.users u.id amount)
      u.id = some u
  rw [hbuy]
  show get_user (update_balance (update_balance st.users u.id (-amount)) u.id amount)
      u.id = some u
  rw [get_user_update_self amount (get_user_update_self (-amount) (huid ▸ hg))]
  cases u with
  | mk i f l bal => simp

/-- C4 (witness): the round trip applied to a linked caller with amount 4. -/
theorem claim4_witness :
    (0 : Int) < 4 ∧
    find_user_by_external stW "telegram" "12345" = some ⟨"12345", "John", "Doe", 7⟩ ∧
    get_user ((sell_chips_to_bank ctxW 4 (buy_chips_from_bank ctxW 4 stW).2).2).users
      "12345" = some ⟨"12345", "John", "Doe", 7⟩ :=
  ⟨by decide, rfl,
    @claim4_buy_sell_roundtrip stW ctxW ⟨"12345", "John", "Doe", 7⟩ 4 (by decide) rfl⟩

/-- A reaction event on an untracked (or already-popped) message id is a
no-op: the state is returned unchanged and nothing is sent. -/
theorem on_reaction_noop {st : HandlerState} {mid : Nat}
    (h : lookup_pending st.pending mid = none) (b : Bool) (r : Nat) (e : String) :
    on_reaction_add b r mid e st = (st, []) := by
  unfold on_reaction_add
  cases b with
  | true => rfl
  | false =>
    simp only [Bool.false_eq_true, if_false]
    rw [h]

/-- A confirm or reject reaction by the intended seller pops the pending entry
for its message id. -/
theorem on_reaction_consumes {st : HandlerState} {mid : Nat} {req : PendingRequest}
    {emoji : String} (hlook : lookup_pending st.pending mid = some req)
    (hem : emoji = "✅" ∨ emoji = "❌") :
    (on_reaction_add false req.seller_discord_id mid emoji st).1.pending =
      pop_pending st.pending mid := by
  unfold on_reaction_add
  simp only [Bool.false_eq_true, if_false]
  rw [hlook]
  rcases hem with he | he <;> simp [he]

/-- C2: once a pending transfer has been consumed by a confirm or reject
reaction from its seller, any later reaction event on the same message id —
any reactor, any emoji, bot or not — leaves the handler state (balances and
registry) unchanged and sends nothing: no second balance application and no
duplicate broadcast. -/
theorem claim2_token_resolved_once {st : HandlerState} {mid : Nat} {req : PendingRequest}
    {emoji : String} (hlook : lookup_pending st.pending mid = some req)
    (hem : emoji = "✅" ∨ emoji = "❌") (b2 : Bool) (r2 : Nat) (e2 : String) :
    on_reaction_add b2 r2 mid e2
        (on_reaction_add false req.seller_discord_id mid emoji st).1 =
      ((on_reaction_add false req.seller_discord_id mid emoji st).1, []) := by
  apply on_reaction_noop
  rw [on_reaction_consumes hlook hem, lookup_pop_pending_none]

/-- Handler state for the C2 witness: one tracked confirmation message. -/
def stH : HandlerState := ⟨[(10, ⟨"A", "B", 3, 77⟩)], usersW⟩

/-- C2 (witness): a confirmed request replayed with the same message id. -/
theorem claim2_witness :
    lookup_pending stH.pending 10 = some ⟨"A", "B", 3, 77⟩ ∧
    (("✅" : String) = "✅" ∨ ("✅" : String) = "❌") ∧
    on_reaction_add false 77 10 "✅" (on_reaction_add false 77 10 "✅" stH).1 =
      ((on_reaction_add false 77 10 "✅" stH).1, []) :=
  ⟨rfl, Or.inl rfl,
    @claim2_token_resolved_once stH 10 ⟨"A", "B", 3, 77⟩ "✅" rfl (Or.inl rfl) false 77 "✅"⟩

/-- C5: for every caller context and positive amount, `buy_chips_from_bank`
succeeds, decreases the resolved caller's balance by the amount, returns
exactly one broadcast per user known to the store after the debit — each with
text "`<first_name> <last_name> buys <amount>`" — and, the caller having been
resolved (and possibly created) before the roster is read, the caller is
itself a broadcast recipient. -/
theorem claim5_buy_from_bank {amount : Int} (ctx : ExternalContext) (st : EngineState)
    (hpos : 0 < amount) :
    (buy_chips_from_bank ctx amount st).1.success = true ∧
    get_user ((buy_chips_from_bank ctx amount st).2).users (resolve_caller ctx st).1.id =
      some { (resolve_caller ctx st).1 with
        balance := (resolve_caller ctx st).1.balance - amount } ∧
    (buy_chips_from_bank ctx amount st).1.broadcasts =
      ((buy_chips_from_bank ctx amount st).2).users.map
        (fun v => ⟨v.id, (resolve_caller ctx st).1.first_name ++ " "
          ++ (resolve_caller ctx st).1.last_name ++ " buys " ++ toString amount⟩) ∧
    ∃ msg ∈ (buy_chips_from_bank ctx amount st).1.broadcasts,
      msg.user_id = (resolve_caller ctx st).1.id := by
  have hself : get_user (resolve_caller ctx st).2.users (resolve_caller ctx st).1.id =
      some (resolve_caller ctx st).1 :=
    goc_get_self st ctx.provider ctx.provider_user_id ctx.first_name ctx.last_name
  rw [buy_eq_of_pos ctx st hpos]
  refine ⟨rfl, ?_, rfl, ?_⟩
  · show get_user (update_balance (resolve_caller ctx st).2.users
        (resolve_caller ctx st).1.id (-amount)) (resolve_caller ctx st).1.id = _
    rw [get_user_update_self (-amount) hself, sub_eq_add_neg]
  · refine ⟨⟨(resolve_caller ctx st).1.id, (resolve_caller ctx st).1.first_name ++ " "
      ++ (resolve_caller ctx st).1.last_name ++ " buys " ++ toString amount⟩, ?_, rfl⟩
    show _ ∈ (update_balance (resolve_caller ctx st).2.users
        (resolve_caller ctx st).1.id (-amount)).map _
    have hmem : ({ (resolve_caller ctx st).1 with
        balance := (resolve_caller ctx st).1.balance + -amount } : User) ∈
        update_balance (resolve_caller ctx st).2.users
          (resolve_caller ctx st).1.id (-amount) :=
      get_user_mem (get_user_update_self (-amount) hself)
    exact List.mem_map.mpr ⟨_, hmem, rfl⟩

/-- C5 (witness): a bank buy of 6 by the linked witness caller. -/
theorem claim5_witness :
    (0 : Int) < 6 ∧
    ((buy_chips_from_bank ctxW 6 stW).1.success = true ∧
      get_user ((buy_chips_from_bank ctxW 6 stW).2).users (resolve_caller ctxW stW).1.id =
        some { (resolve_caller ctxW stW).1 with
          balance := (resolve_caller ctxW stW).1.balance - 6 } ∧
      (buy_chips_from_bank ctxW 6 stW).1.broadcasts =
        ((buy_chips_from_bank ctxW 6 stW).2).users.map
          (fun v => ⟨v.id, (resolve_caller ctxW stW).1.first_name ++ " "
            ++ (resolve_caller ctxW stW).1.last_name ++ " buys " ++ toString (6 : Int)⟩) ∧
      ∃ msg ∈ (buy_chips_from_bank ctxW 6 stW).1.broadcasts,
        msg.user_id = (resolve_caller ctxW stW).1.id) :=
  ⟨by decide, claim5_buy_from_bank ctxW stW (by decide)⟩

/-- C6: for every caller context and positive amount,
`initiate_buy_from_player` never lists the resolved caller among the returned
candidates, and it returns the "no counterpart" failure exactly when every
known user other than the caller is absent (the filtered candidate set is
empty). -/
theorem claim6_initiate (ctx : ExternalContext) {amount : Int} (st : EngineState)
    (hpos : 0 < amount) :
    (∀ v ∈ (initiate_buy_from_player ctx amount st).1.candidates,
      v.id ≠ (resolve_caller ctx st).1.id) ∧
    (((initiate_buy_from_player ctx amount st).1.success = false ∧
        (initiate_buy_from_player ctx amount st).1.error_message =
          some "No other players available to buy from.") ↔
      (resolve_caller ctx st).2.users.filter
        (fun v => v.id ≠ (resolve_caller ctx st).1.id) = []) := by
  rw [initiate_eq_of_pos ctx st hpos]
  by_cases hc : (resolve_caller ctx st).2.users.filter
      (fun v => v.id ≠ (resolve_caller ctx st).1.id) = []
  · rw [if_pos hc]
    exact ⟨by intro v hv; exact absurd hv (by simp), iff_of_true ⟨rfl, rfl⟩ hc⟩
  · rw [if_neg hc]
    constructor
    · intro v hv
      have := List.of_mem_filter hv
      simpa using this
    · exact iff_of_false (by simp) hc

/-- C6 (witness): initiating for the linked caller with one other user known. -/
theorem claim6_witness :
    (0 : Int) < 2 ∧
    ((∀ v ∈ (initiate_buy_from_player ctxW 2 stW).1.candidates,
        v.id ≠ (resolve_caller ctxW stW).1.id) ∧
      (((initiate_buy_from_player ctxW 2 stW).1.success = false ∧
          (initiate_buy_from_player ctxW 2 stW).1.error_message =
            some "No other players available to buy from.") ↔
        (resolve_caller ctxW stW).2.users.filter
          (fun v => v.id ≠ (resolve_caller ctxW stW).1.id) = [])) :=
  ⟨by decide, claim6_initiate ctxW stW (by decide)⟩

end ChipLog
